import Mathlib

/-!
Verification development for the newsdata Go client library (sicamois/newsdata).

We give a shallow embedding of the pagination-driven retrieval engine and its
supporting helpers, translated from the Go sources:

* `streamArticles` / `fetchArticles` (src/newsdata.go, lines 199-254): the
  channel-based streaming loop and its draining materializer.
* `NewsService.Stream` / `NewsService.Get` (src/values.go, lines 186-261):
  the context-aware streaming loop with cooperative cancellation.
* `structToMap` (src/unnamed/part_007, lines 13-51): the reflection-driven
  query-parameter encoder.
* `BreakingNewsRequest.setPage` and the request structs (src/request.go).
* the non-2xx handling of `NewsdataClient.fetch` (src/newsdata.go, 173-183).
* `ArchiveQueryParams.Validate` date checks (src/services.go, 488-494) and
  the identical checks of `CryptoQueryParams.Validate` (325-331).
* `Tags.UnmarshalJSON` and `SentimentStats.UnmarshalJSON` (src/helpers.go).
* `NewsdataClient.NewArticleRequest` (src/request.go, 59-75).

Unbounded Go `for` loops are embedded with an explicit fuel argument; a run
that exhausts its fuel reports the `running` status (the Go loop would still
be iterating).  Items carried by pages are an arbitrary type `α`; the query
value threaded through the loop is an arbitrary type `Q` mutated only through
the supplied `setPage`-style function, mirroring the Go `pagerValider`
interface.
-/

namespace Newsdata

/-- One decoded page of the news API response (`newsResponse` in
src/newsdata.go: status, server-reported total, this page's items, and the
continuation token; an empty `nextPage` means "no more pages"). -/
structure NewsResponse (α : Type) where
  status : String
  totalResults : Nat
  articles : List α
  nextPage : String
deriving Repr, DecidableEq

/-- The transport-plus-decode boundary used by the engine (`fetchNews`): for a
query value it returns either a fetch/decode error or a decoded page. -/
def Server (Q α : Type) := Q → Except String (NewsResponse α)

/-- Status of one engine run: the goroutine returned normally (`done`), pushed
an error on the error channel (`fail`), or — fuel exhausted — would still be
looping (`running`). -/
inductive SessionStatus where
  | done
  | fail (err : String)
  | running
deriving Repr, DecidableEq

/-- Observable outcome of a `streamArticles` run: the items sent on the output
channel in order, the queries passed to `fetchNews` (one per page fetch, in
order), and the terminal status. -/
structure RunOut (Q α : Type) where
  emitted : List α
  queries : List Q
  status : SessionStatus
deriving Repr, DecidableEq

/-- Inner article loop of `streamArticles` (src/newsdata.go, lines 221-228):
emit while `index < maxResults`, otherwise return.  Yields the updated
emission list, the updated index, and whether the `else return` branch fired
(terminating the whole session). -/
def emitLoop {α : Type} (maxResults : Nat) : List α → Nat → List α → List α × Nat × Bool
  | [], index, acc => (acc, index, false)
  | a :: rest, index, acc =>
    if index < maxResults then emitLoop maxResults rest (index + 1) (acc ++ [a])
    else (acc, index, true)

/-- The `for` loop of `streamArticles` (src/newsdata.go, lines 211-230).
State: current query value (the Go code mutates the query in place via
`setPage`), `index` (items emitted so far), `maxResults` and the emission
accumulator.  Each iteration fetches, substitutes `TotalResults` for a zero
cap, emits the page's articles subject to the cap, and continues with the
query's page token set to the response's `NextPage` — the Go loop has no
empty-`NextPage` exit. -/
def streamArticlesLoop {Q α : Type} (server : Server Q α) (setPg : Q → String → Q) :
    Nat → Q → Nat → Nat → List α → RunOut Q α
  | 0, _, _, _, emitted => ⟨emitted, [], .running⟩
  | fuel + 1, q, index, maxResults, emitted =>
    match server q with
    | .error e => ⟨emitted, [q], .fail e⟩
    | .ok res =>
      let m := if maxResults = 0 then res.totalResults else maxResults
      match emitLoop m res.articles index emitted with
      | (emitted', _, true) => ⟨emitted', [q], .done⟩
      | (emitted', index', false) =>
        let r := streamArticlesLoop server setPg fuel (setPg q res.nextPage) index' m emitted'
        ⟨r.emitted, q :: r.queries, r.status⟩

/-- `streamArticles` (src/newsdata.go, lines 199-233): validate the query,
then run the pagination loop starting from `page = ""`, `index = 0`. -/
def streamArticles {Q α : Type} (server : Server Q α) (setPg : Q → String → Q)
    (valid : Q → Option String) (query : Q) (maxResults : Nat) (fuel : Nat) : RunOut Q α :=
  match valid query with
  | some e => ⟨[], [], .fail e⟩
  | none => streamArticlesLoop server setPg fuel (setPg query "") 0 maxResults []

/-- `fetchArticles` (src/newsdata.go, lines 236-254): drain the stream into a
slice; a closed channel yields the collected articles, an error yields the
error.  `none` marks a run whose fuel ran out (the Go call would still be
blocked on the stream). -/
def fetchArticles {Q α : Type} (server : Server Q α) (setPg : Q → String → Q)
    (valid : Q → Option String) (query : Q) (maxResults : Nat) (fuel : Nat) :
    Option (Except String (List α)) :=
  match streamArticles server setPg valid query maxResults fuel with
  | ⟨emitted, _, .done⟩ => some (.ok emitted)
  | ⟨_, _, .fail e⟩ => some (.error e)
  | ⟨_, _, .running⟩ => none

/-- Terminal error of a `NewsService.Stream` session (src/values.go).  The Go
code sends a wrapped error on the error channel; wrapping with `%w` keeps
`context.Canceled` reachable via `errors.Is`, so cancellation is a
distinguishable error kind, modelled as its own constructor. -/
inductive StreamErr where
  | canceled
  | fetchFail (msg : String)
deriving Repr, DecidableEq

/-- Terminal status of a `NewsService.Stream` run. -/
inductive StreamStatus where
  | done
  | fail (e : StreamErr)
  | running
deriving Repr, DecidableEq

/-- Observable outcome of one `NewsService.Stream` run: items sent on the
output channel in order, the number of transport calls actually issued, and
the terminal status. -/
structure StreamOut (α : Type) where
  emitted : List α
  calls : Nat
  status : StreamStatus
deriving Repr, DecidableEq

/-- Cancellation model: the context's Done channel is closed once the number
of items handed to the consumer reaches `k` (`cancelAt = some k`); `none`
means the caller never cancels. -/
def ctxDone (cancelAt : Option Nat) (count : Nat) : Bool :=
  match cancelAt with
  | none => false
  | some k => decide (k ≤ count)

/-- Inner emission loop of `NewsService.Stream` (src/values.go, lines
206-214): for each article a `select` between sending on `out` and
`ctx.Done()`; once the context is done the Done branch fires, the article is
not sent, and the loop reports cancellation.  Yields the updated emission
list, the updated `articlesCount`, and whether cancellation fired. -/
def streamEmit {α : Type} (cancelAt : Option Nat) : List α → Nat → List α → List α × Nat × Bool
  | [], count, acc => (acc, count, false)
  | a :: rest, count, acc =>
    if ctxDone cancelAt count then (acc, count, true)
    else streamEmit cancelAt rest (count + 1) (acc ++ [a])

/-- Modelled from the spec: the context-aware transport `NewsDataClient.fetch`
reached through `NewsService.fetch` (src/values.go, lines 169-180) is not
under src/ — only its caller is.  Per the spec's transport contract a call
made with an already-cancelled context terminates with a cancellation error
before any HTTP request is issued; otherwise the call behaves as the
token-keyed `server`, and a fetch/decode failure surfaces as a non-cancel
error. -/
def clientFetch {α : Type} (server : Server String α) (cancelAt : Option Nat)
    (count : Nat) (token : String) : Except StreamErr (NewsResponse α) :=
  if ctxDone cancelAt count then .error .canceled
  else
    match server token with
    | .error e => .error (.fetchFail e)
    | .ok res => .ok res

/-- The `for` loop of `NewsService.Stream` (src/values.go, lines 200-223).
The request parameters only ever change in their `"page"` entry, so the loop
state keeps the current continuation token (`""` = the key is absent, as on
the first request).  Each iteration calls `clientFetch` with the session
context; a call aborted by cancellation issues no HTTP request, so `calls`
does not increase on that path.  After a page's articles are emitted the loop
returns when `articlesCount == res.TotalResults`, follows a non-empty
`NextPage`, and returns otherwise. -/
def streamLoop {α : Type} (server : Server String α) (cancelAt : Option Nat) :
    Nat → String → Nat → List α → Nat → StreamOut α
  | 0, _, _, emitted, calls => ⟨emitted, calls, .running⟩
  | fuel + 1, token, count, emitted, calls =>
    match clientFetch server cancelAt count token with
    | .error .canceled => ⟨emitted, calls, .fail .canceled⟩
    | .error (.fetchFail e) => ⟨emitted, calls + 1, .fail (.fetchFail e)⟩
    | .ok res =>
      match streamEmit cancelAt res.articles count emitted with
      | (emitted', _, true) => ⟨emitted', calls + 1, .fail .canceled⟩
      | (emitted', count', false) =>
        if count' = res.totalResults then ⟨emitted', calls + 1, .done⟩
        else if res.nextPage ≠ "" then
          streamLoop server cancelAt fuel res.nextPage count' emitted' (calls + 1)
        else ⟨emitted', calls + 1, .done⟩

/-- `NewsService.Stream` (src/values.go, lines 186-226): run the pagination
loop from an absent page token with `articlesCount = 0`. -/
def NewsService.Stream {α : Type} (server : Server String α) (cancelAt : Option Nat)
    (fuel : Nat) : StreamOut α :=
  streamLoop server cancelAt fuel "" 0 [] 0

/-- `NewsService.Get` (src/values.go, lines 231-261): drain `Stream`,
cancelling once `maxResults` items have been collected (those are returned
with a nil error).  Otherwise the article channel closes; by then the error
channel is already closed (the deferred closes run in LIFO order), so the
`select` always takes the error-channel case: the buffered error if one was
sent, else the channel's zero value `nil` — in which case Get returns the
*nil slice* together with the nil error.  `none` marks a fuel-exhausted
run. -/
def NewsService.Get {α : Type} (server : Server String α) (maxResults : Nat)
    (fuel : Nat) : Option (Except StreamErr (List α)) :=
  match NewsService.Stream server none fuel with
  | ⟨emitted, _, status⟩ =>
    if 0 < maxResults ∧ maxResults ≤ emitted.length then some (.ok (emitted.take maxResults))
    else
      match status with
      | .done => some (.ok [])
      | .fail e => some (.error e)
      | .running => none

/-- `BaseRequest` (src/request.go, lines 580-600): the shared query-parameter
fields, including the continuation-token slot `page` (Go field `Page`, query
tag `"page"`).  Go string fields become `String`, `[]string` becomes
`List String`, `int` becomes `Int`. -/
structure BaseRequest where
  id : List String
  query : String
  queryInTitle : String
  queryInMetadata : String
  categories : List String
  excludeCategories : List String
  countries : List String
  languages : List String
  domains : List String
  domainUrls : List String
  excludeDomains : List String
  excludeFields : List String
  priorityDomain : String
  timezone : String
  fullContent : String
  image : String
  video : String
  size : Int
  page : String
deriving Repr, DecidableEq

/-- `BreakingNewsRequest` (src/request.go, lines 605-612): embeds
`BaseRequest` (modelled as the `base` field) and adds its own filters. -/
structure BreakingNewsRequest where
  base : BaseRequest
  timeframe : String
  tags : List String
  sentiment : String
  regions : List String
  removeDuplicates : String
deriving Repr, DecidableEq

/-- `(q *BreakingNewsRequest) setPage(page string)` (src/request.go, lines
614-617): sets the (promoted) `Page` field, nothing else. -/
def BreakingNewsRequest.setPage (q : BreakingNewsRequest) (page : String) :
    BreakingNewsRequest :=
  { q with base := { q.base with page := page } }

/-- The zero value of `BaseRequest` (all Go fields at their zero value). -/
def emptyBaseRequest : BaseRequest :=
  ⟨[], "", "", "", [], [], [], [], [], [], [], [], "", "", "", "", "", 0, ""⟩

/-- The zero value of `BreakingNewsRequest`. -/
def emptyBreakingNewsRequest : BreakingNewsRequest :=
  ⟨emptyBaseRequest, "", [], "", [], ""⟩

/-- A reflected Go field value as seen by `structToMap`: the scalar and slice
kinds that occur in the request structs. -/
inductive FlatVal where
  | str (s : String)
  | strList (l : List String)
  | int (n : Int)
  | bool (b : Bool)

/-- `reflect.Value.IsZero` on a flat value (nil slice and empty string are
zero). -/
def FlatVal.isZero : FlatVal → Bool
  | .str s => s = ""
  | .strList l => l.isEmpty
  | .int n => n = 0
  | .bool b => b = false

/-- `fmt.Sprintf("%v", v)` on a flat value (Go prints a string slice as its
elements space-separated inside brackets). -/
def FlatVal.format : FlatVal → String
  | .str s => s
  | .strList l => "[" ++ String.intercalate " " l ++ "]"
  | .int n => toString n
  | .bool b => if b then "true" else "false"

/-- A reflected Go field value: either a flat value or an embedded
(anonymous) struct, which `reflect`'s `NumField`/`Field` expose as a single
struct-kinded field.  The embedded struct carries its sub-fields as
`(name, query tag, value)` triples. -/
inductive GoVal where
  | flat (v : FlatVal)
  | emb (fields : List (String × String × FlatVal))

/-- `reflect.Value.IsZero` (a struct is zero iff all its fields are). -/
def GoVal.isZero : GoVal → Bool
  | .flat v => v.isZero
  | .emb fields => fields.all (fun f => f.2.2.isZero)

/-- `fmt.Sprintf("%v", v)`: an embedded struct prints as its field values
space-separated inside braces. -/
def GoVal.format : GoVal → String
  | .flat v => v.format
  | .emb fields =>
    "\x7b" ++ String.intercalate " " (fields.map (fun f => f.2.2.format)) ++ "\x7d"

/-- `strings.ToLower`, character by character (the field names involved are
ASCII). -/
def strToLower (s : String) : String :=
  (s.data.map Char.toLower).asString

/-- `strings.Split(s, sep)` for a one-character separator, character by
character: every occurrence of `sep` splits, an empty string yields `[""]`. -/
def splitCharAux (sep : Char) : List Char → List Char → List (List Char)
  | [], acc => [acc.reverse]
  | x :: xs, acc =>
    if x = sep then acc.reverse :: splitCharAux sep xs []
    else splitCharAux sep xs (x :: acc)

/-- `strings.Split(s, sep)` for a one-character separator. -/
def stringsSplit (sep : Char) (s : String) : List String :=
  (splitCharAux sep s.data []).map List.asString

/-- `strings.HasPrefix(s, pre)`, character by character. -/
def startsWithChars (s pre : String) : Bool :=
  pre.data.isPrefixOf s.data

/-- One struct field as iterated by `structToMap`: Go field name, `query`
struct tag (`""` when absent), and reflected value. -/
structure GoField where
  name : String
  queryTag : String
  val : GoVal

/-- Loop body of `structToMap` over the remaining fields, accumulating the
result map (an association list in field order; the encoded structs have
pairwise-distinct tags, so this agrees with the Go map).  `none` reflects the
`value.Bool()` panic the Go code hits when a `removeduplicate`-tagged field is
not of bool kind. -/
def structToMapAux : List GoField → List (String × String) → Option (List (String × String))
  | [], result => some result
  | f :: rest, result =>
    let tag := if f.queryTag = "" then strToLower f.name else f.queryTag
    if f.val.isZero then structToMapAux rest result
    else if tag = "removeduplicate" then
      match f.val with
      | .flat (.bool b) => structToMapAux rest (if b then result ++ [(tag, "1")] else result)
      | _ => none
    else
      match f.val with
      | .flat (.strList l) => structToMapAux rest (result ++ [(tag, String.intercalate "," l)])
      | v => structToMapAux rest (result ++ [(tag, v.format)])

/-- `structToMap` (src/unnamed/part_007, lines 13-51): convert a struct's
fields into a query-parameter map.  Fields with a zero value are omitted, a
field without a `query` tag is keyed by its lowercased name, slices join with
a comma, everything else (including an embedded struct) is `%v`-formatted. -/
def structToMap (fields : List GoField) : Option (List (String × String)) :=
  structToMapAux fields []

/-- The field list `reflect` iterates for `BaseRequest` (src/request.go,
lines 581-599), in declaration order, as `(name, query tag, value)`. -/
def baseRequestFields (b : BaseRequest) : List (String × String × FlatVal) :=
  [("Id", "id", .strList b.id),
   ("Query", "q", .str b.query),
   ("QueryInTitle", "qInTitle", .str b.queryInTitle),
   ("QueryInMetadata", "qInMeta", .str b.queryInMetadata),
   ("Categories", "category", .strList b.categories),
   ("ExcludeCategories", "excludecategory", .strList b.excludeCategories),
   ("Countries", "country", .strList b.countries),
   ("Languages", "language", .strList b.languages),
   ("Domains", "domain", .strList b.domains),
   ("DomainUrls", "domainurl", .strList b.domainUrls),
   ("ExcludeDomains", "excludedomain", .strList b.excludeDomains),
   ("ExcludeFields", "excludefield", .strList b.excludeFields),
   ("PriorityDomain", "prioritydomain", .str b.priorityDomain),
   ("Timezone", "timezone", .str b.timezone),
   ("FullContent", "full_content", .str b.fullContent),
   ("Image", "image", .str b.image),
   ("Video", "video", .str b.video),
   ("Size", "size", .int b.size),
   ("Page", "page", .str b.page)]

/-- The field list `reflect` iterates for `BreakingNewsRequest`
(src/request.go, lines 605-612): the anonymous `BaseRequest` appears as a
single struct-kinded field named `BaseRequest` with no `query` tag, followed
by the request's own fields. -/
def breakingNewsRequestFields (q : BreakingNewsRequest) : List GoField :=
  [⟨"BaseRequest", "", .emb (baseRequestFields q.base)⟩,
   ⟨"Timeframe", "timeframe", .flat (.str q.timeframe)⟩,
   ⟨"Tags", "tag", .flat (.strList q.tags)⟩,
   ⟨"Sentiment", "sentiment", .flat (.str q.sentiment)⟩,
   ⟨"Regions", "region", .flat (.strList q.regions)⟩,
   ⟨"RemoveDuplicates", "removeduplicate", .flat (.str q.removeDuplicates)⟩]

/-- The nested error payload of `errorResponse` (src/newsdata.go, lines
123-130): the decoded `results` object with `message` and `code`. -/
structure ApiError where
  message : String
  code : String
deriving Repr, DecidableEq

/-- `errorResponse` (src/newsdata.go, lines 123-130): `status` plus the
decoded error payload. -/
structure ErrorResponse where
  status : String
  err : ApiError
deriving Repr, DecidableEq

/-- Non-2xx handling of `NewsdataClient.fetch` (src/newsdata.go, lines
173-183): on a non-200 status the body is decoded as `errorResponse`
(`decoded` is that decode's outcome); a decode failure returns the decode
error, otherwise the decoded message is returned, both suffixed with the
request URL.  A 200 status returns the body. -/
def fetchHandleStatus (statusCode : Nat) (decoded : Except String ErrorResponse)
    (body url : String) : Except String String :=
  if statusCode ≠ 200 then
    match decoded with
    | .error e => .error (e ++ " - url: " ++ url)
    | .ok d => .error (d.err.message ++ " - url: " ++ url)
  else .ok body

/-- Date-range checks of `ArchiveQueryParams.Validate` (src/services.go,
lines 488-494); `CryptoQueryParams.Validate` (lines 325-331) contains the
same two checks verbatim.  A `DateTime` is modelled by its distance from the
Go zero time (year 1) in seconds, so `IsZero` is `= 0` and `After(time.Now())`
is `> now`; any real clock reading satisfies `0 < now`.  The Go condition is
literally `p.From.IsZero() && p.From.After(time.Now())` (and the same for
`To`). -/
def archiveValidateDates (fromDate toDate now : Int) : Option String :=
  if fromDate = 0 ∧ fromDate > now then some "From date must be in the past"
  else if toDate = 0 ∧ toDate > now then some "To date must be in the past"
  else none

/-- `Tags.UnmarshalJSON` (src/helpers.go, lines 30-42), operating on the raw
JSON bytes `b` of the field (for a JSON string these bytes include the
surrounding quote characters).  `"null"` or a raw prefix `ONLY AVAILABLE IN `
resets the tags to nil (modelled `[]`); any other input is comma-split and
copied element-wise.  The function never returns an error. -/
def tagsUnmarshalJSON (b : String) : List String :=
  if b = "null" || startsWithChars b "ONLY AVAILABLE IN " then []
  else stringsSplit ',' b

/-- The JSON wire shapes the `sentiment_stats` field can take: `null`, a
plan-restriction message string, or a numeric object.  The numeric values are
opaque to the decoding logic and modelled as `Int`. -/
inductive SentimentWire where
  | null
  | str (s : String)
  | obj (fields : List (String × Int))
deriving Repr, DecidableEq

/-- `SentimentStats` (src/newsdata.go, lines 51-55), with the scores opaque. -/
structure SentimentStats where
  positive : Int
  neutral : Int
  negative : Int
deriving Repr, DecidableEq

/-- `SentimentStats.UnmarshalJSON` (src/helpers.go, lines 47-77):
`json.Unmarshal(b, &msg)` into a string succeeds exactly when `b` is a JSON
string or `null` (a JSON `null` is a no-op for a string target), and then the
stats are reset to the zero value; otherwise the bytes are decoded as a
`map[string]float64` and the three keys `positive`, `neutral`, `negative`
must all be present. -/
def sentimentStatsUnmarshalJSON : SentimentWire → Except String SentimentStats
  | .null => .ok ⟨0, 0, 0⟩
  | .str _ => .ok ⟨0, 0, 0⟩
  | .obj fields =>
    match fields.lookup "positive" with
    | none => .error "invalid sentiment stats"
    | some p =>
      match fields.lookup "neutral" with
      | none => .error "invalid sentiment stats"
      | some neu =>
        match fields.lookup "negative" with
        | none => .error "invalid sentiment stats"
        | some neg => .ok ⟨p, neu, neg⟩

/-- The news service selector of the builder API (src/request.go, lines
16-20). -/
inductive NewsServiceKind where
  | latestNews
  | cryptoNews
  | newsArchive
deriving Repr, DecidableEq

/-- `ArticleRequest` (src/request.go, lines 49-54) restricted to the data the
builder manipulates: the selected service and the parameter map.  Parameter
values are Go byte strings, modelled as lists of their bytes. -/
structure ArticleRequestM where
  service : NewsServiceKind
  params : List (String × List Char)
deriving Repr, DecidableEq

/-- `NewsdataClient.NewArticleRequest` (src/request.go, lines 59-75): start
from an empty parameter map; a query longer than 512 bytes is truncated to
its first 512 bytes (with a logged warning, not an error); an empty query
adds no `q` parameter, any other query is stored under `q`. -/
def newArticleRequest (service : NewsServiceKind) (query : List Char) : ArticleRequestM :=
  let query := if 512 < query.length then query.take 512 else query
  if query = [] then ⟨service, []⟩
  else ⟨service, [("q", query)]⟩

/-!  ## Concrete fixtures and supporting lemmas  -/

/-- A one-page news service keyed by the request's page token: the first
request (empty token) yields one article, `totalResults = 1` and an empty
continuation token; any other token is unknown. -/
def onePageServer : Server BreakingNewsRequest Nat := fun q =>
  if q.base.page = "" then .ok ⟨"success", 1, [7], ""⟩ else .error "unknown page token"

/-- The same one-page fixture for the token-keyed `NewsService.Stream`. -/
def onePageTokenServer : Server String Nat := fun t =>
  if t = "" then .ok ⟨"success", 1, [7], ""⟩ else .error "unknown page token"

/-- The inner article loop keeps `index` equal to the number of items emitted
so far and never pushes it past the cap. -/
theorem emitLoop_invariant {α : Type} (maxR : Nat) :
    ∀ (arts : List α) (index : Nat) (acc : List α), acc.length = index → index ≤ maxR →
      (emitLoop maxR arts index acc).1.length = (emitLoop maxR arts index acc).2.1 ∧
      (emitLoop maxR arts index acc).2.1 ≤ maxR := by
  intro arts
  induction arts with
  | nil =>
    intro index acc h1 h2
    simpa [emitLoop] using ⟨h1, h2⟩
  | cons a rest ih =>
    intro index acc h1 h2
    by_cases h : index < maxR
    · simpa [emitLoop, h] using ih (index + 1) (acc ++ [a]) (by simp [h1]) h
    · simpa [emitLoop, h] using ⟨h1, h2⟩

/-- For a non-zero cap `C`, the `streamArticles` loop never emits more than
`C` items, whatever the fuel (hence at every step of the run). -/
theorem streamArticlesLoop_emitted_le {Q α : Type} (server : Server Q α)
    (setPg : Q → String → Q) (C : Nat) (hC : C ≠ 0) :
    ∀ (fuel : Nat) (q : Q) (index : Nat) (emitted : List α),
      emitted.length = index → index ≤ C →
      (streamArticlesLoop server setPg fuel q index C emitted).emitted.length ≤ C := by
  intro fuel
  induction fuel with
  | zero =>
    intro q index emitted hlen hle
    simpa [streamArticlesLoop, hlen] using hle
  | succ n ih =>
    intro q index emitted hlen hle
    rcases hs : server q with e | res
    · simp [streamArticlesLoop, hs, hlen]
      omega
    · have hspec := emitLoop_invariant C res.articles index emitted hlen hle
      rcases he : emitLoop C res.articles index emitted with ⟨acc', idx', b⟩
      rw [he] at hspec
      simp only at hspec
      cases b
      · simp only [streamArticlesLoop, hs, hC, if_false, he]
        exact ih (setPg q res.nextPage) idx' acc' hspec.1 hspec.2
      · simp only [streamArticlesLoop, hs, hC, if_false, he]
        rw [hspec.1]
        exact hspec.2

/-- Every query the `streamArticles` loop hands to the transport agrees with
the loop's entry query once the page token is erased, provided the
page-setter overwrites the token (`setPg (setPg q a) b = setPg q b`). -/
theorem streamArticlesLoop_queries_erase {Q α : Type} (server : Server Q α)
    (setPg : Q → String → Q) (hset : ∀ q a b, setPg (setPg q a) b = setPg q b) :
    ∀ (fuel : Nat) (q : Q) (index maxR : Nat) (emitted : List α)
      (q' : Q), q' ∈ (streamArticlesLoop server setPg fuel q index maxR emitted).queries →
      setPg q' "" = setPg q "" := by
  intro fuel
  induction fuel with
  | zero =>
    intro q index maxR emitted q' hq
    simp [streamArticlesLoop] at hq
  | succ n ih =>
    intro q index maxR emitted q' hq
    rcases hs : server q with e | res
    · simp [streamArticlesLoop, hs] at hq
      rw [hq]
    · rcases he : emitLoop (if maxR = 0 then res.totalResults else maxR) res.articles index emitted
        with ⟨acc', idx', b⟩
      cases b
      · simp only [streamArticlesLoop, hs, he, List.mem_cons] at hq
        rcases hq with hq | hq
        · rw [hq]
        · rw [ih (setPg q res.nextPage) idx' _ acc' q' hq, hset]
      · simp only [streamArticlesLoop, hs, he, List.mem_singleton] at hq
        rw [hq]

/-!  ## Claim theorems  -/

/-- C1: the claim says that a decoded page with an empty `nextPage` token
terminates the session after that page's items, with no further page fetch,
for every cap.  The code violates this: `streamArticles` (src/newsdata.go,
lines 199-233) has no empty-token exit, so after processing the single page
(one article, `nextPage = ""`) with cap 5 it keeps refetching the first page
(token `""`) and re-emitting its article — still running after 4 fetches with
4 duplicated emissions, and only the cap stops it after 6 fetches with 5
duplicated emissions. -/
theorem c1_streamArticles_refetches_after_empty_nextPage :
    (streamArticles onePageServer BreakingNewsRequest.setPage (fun _ => none)
        emptyBreakingNewsRequest 5 4).status = .running ∧
    (streamArticles onePageServer BreakingNewsRequest.setPage (fun _ => none)
        emptyBreakingNewsRequest 5 4).queries.length = 4 ∧
    (streamArticles onePageServer BreakingNewsRequest.setPage (fun _ => none)
        emptyBreakingNewsRequest 5 4).emitted = [7, 7, 7, 7] ∧
    (streamArticles onePageServer BreakingNewsRequest.setPage (fun _ => none)
        emptyBreakingNewsRequest 5 6).emitted = [7, 7, 7, 7, 7] ∧
    (streamArticles onePageServer BreakingNewsRequest.setPage (fun _ => none)
        emptyBreakingNewsRequest 5 6).queries.length = 6 ∧
    (streamArticles onePageServer BreakingNewsRequest.setPage (fun _ => none)
        emptyBreakingNewsRequest 5 6).status = .done := by
  refine ⟨by decide, by decide, by decide, by decide, by decide, by decide⟩

/-- C2: for every cap `C > 0` and every server behaviour, neither the
streaming form (`streamArticles`), nor its materializer (`fetchArticles`),
nor `NewsService.Get` ever produces more than `C` items; the bound holds for
every fuel value, i.e. at every step of the retrieval loop. -/
theorem c2_cap_respected {Q α : Type} (server : Server Q α) (setPg : Q → String → Q)
    (valid : Q → Option String) (q : Q) (C fuel : Nat) (hC : 0 < C) :
    (streamArticles server setPg valid q C fuel).emitted.length ≤ C ∧
    (∀ l, fetchArticles server setPg valid q C fuel = some (.ok l) → l.length ≤ C) ∧
    ∀ (tserver : Server String α) (l : List α),
      NewsService.Get tserver C fuel = some (.ok l) → l.length ≤ C := by
  have hC' : C ≠ 0 := Nat.pos_iff_ne_zero.mp hC
  have hmain : (streamArticles server setPg valid q C fuel).emitted.length ≤ C := by
    unfold streamArticles
    rcases valid q with e | _
    · exact streamArticlesLoop_emitted_le server setPg C hC' fuel (setPg q "") 0 [] rfl
        (Nat.zero_le C)
    · simp
  refine ⟨hmain, ?_, ?_⟩
  · intro l hl
    unfold fetchArticles at hl
    rcases hr : streamArticles server setPg valid q C fuel with ⟨em, qs, st⟩
    rw [hr] at hl
    cases st <;> simp at hl
    rw [← hl]
    have := hmain
    rw [hr] at this
    exact this
  · intro tserver l hl
    unfold NewsService.Get at hl
    rcases hr : NewsService.Stream tserver none fuel with ⟨em, calls, st⟩
    rw [hr] at hl
    dsimp only at hl
    by_cases hc : 0 < C ∧ C ≤ em.length
    · rw [if_pos hc] at hl
      simp at hl
      rw [← hl]
      simp [List.length_take]
    · rw [if_neg hc] at hl
      cases st <;> simp at hl
      simp [hl]

/-- Witness for C2 at a concrete cap and fixture. -/
theorem c2_cap_respected_witness :
    (streamArticles onePageServer BreakingNewsRequest.setPage (fun _ => none)
        emptyBreakingNewsRequest 2 3).emitted.length ≤ 2 :=
  (c2_cap_respected onePageServer BreakingNewsRequest.setPage (fun _ => none)
    emptyBreakingNewsRequest 2 3 (by decide)).1

/-- C3: the claim says that when the query matches fewer items (`M`) than the
cap `C` (or `C = 0`) the engine emits exactly `M` items, exhausts the pages
and terminates without error.  The code violates this: with `M = 1` (one
page, one article, `nextPage = ""`, `totalResults = 1`) and cap 2,
`streamArticles` terminates "successfully" having emitted the article twice,
and `NewsService.Get` with `maxResults = 2` returns a nil slice with a nil
error even though its `Stream` emitted the one matching article without
error. -/
theorem c3_underfull_cap_mishandled :
    (streamArticles onePageServer BreakingNewsRequest.setPage (fun _ => none)
        emptyBreakingNewsRequest 2 3).emitted = [7, 7] ∧
    (streamArticles onePageServer BreakingNewsRequest.setPage (fun _ => none)
        emptyBreakingNewsRequest 2 3).status = .done ∧
    NewsService.Stream onePageTokenServer none 3 = ⟨[7], 1, .done⟩ ∧
    NewsService.Get onePageTokenServer 2 3 = some (.ok []) := by
  refine ⟨by decide, by decide, by decide, by rfl⟩

/-- C4: once cancellation is signalled, `NewsService.Stream` terminates: at a
page boundary the session ends at once with the distinguished cancellation
error, the transport-call count unchanged (no further call issued) and the
emitted items untouched; and when cancellation lands mid-page, emission stops
exactly at the cancellation point, the already-emitted items kept whole and
the page's remaining articles unsent (the underlying context-aware transport
is not under src/ and is modelled from the spec as aborting before any
network activity once the context is cancelled). -/
theorem c4_cancellation_terminates {α : Type} (server : Server String α) (k : Nat) :
    (∀ (fuel : Nat) (token : String) (count : Nat) (emitted : List α) (calls : Nat),
      k ≤ count →
      streamLoop server (some k) (fuel + 1) token count emitted calls =
        ⟨emitted, calls, .fail .canceled⟩) ∧
    ∀ (arts : List α) (count : Nat) (acc : List α), count < k → k < count + arts.length →
      streamEmit (some k) arts count acc = (acc ++ arts.take (k - count), k, true) := by
  constructor
  · intro fuel token count emitted calls h
    have hc : ctxDone (some k) count = true := by
      simp [ctxDone]
      omega
    simp [streamLoop, clientFetch, hc]
  · intro arts
    induction arts with
    | nil =>
      intro count acc h1 h2
      simp at h2
      omega
    | cons a rest ih =>
      intro count acc h1 h2
      have hc : ctxDone (some k) count = false := by
        simp [ctxDone]
        omega
      rw [streamEmit, hc, if_neg (by simp)]
      by_cases h3 : count + 1 < k
      · rw [ih (count + 1) (acc ++ [a]) h3 (by simp at h2 ⊢; omega)]
        have ht : k - count = (k - (count + 1)) + 1 := by omega
        rw [ht, List.take_succ_cons]
        simp
      · have hk : k = count + 1 := by omega
        cases rest with
        | nil =>
          simp at h2
          omega
        | cons b bs =>
          have hc2 : ctxDone (some k) (count + 1) = true := by
            simp [ctxDone]
            omega
          rw [streamEmit, hc2, if_pos rfl]
          have ht : k - count = 1 := by omega
          simp [ht, hk]

/-- Witness for C4 on the one-page fixture: cancellation at a page boundary,
and mid-page in a three-article page. -/
theorem c4_cancellation_terminates_witness :
    streamLoop onePageTokenServer (some 1) 3 "tok" 1 [7] 1 = ⟨[7], 1, .fail .canceled⟩ ∧
    streamEmit (some 2) [4, 5, 6] 0 [] = ([4, 5], 2, true) := by
  constructor
  · exact (c4_cancellation_terminates onePageTokenServer 1).1 2 "tok" 1 [7] 1 (by decide)
  · exact (c4_cancellation_terminates onePageTokenServer 2).2 [4, 5, 6] 0 [] (by decide)
      (by decide)

/-- C5: the claim says the continuation token travels as the single `page`
parameter, omitted on the first request.  The code violates this for the
request types `streamArticles` is used with: `structToMap` does not flatten
the anonymous `BaseRequest` field, so a `BreakingNewsRequest` with
`Query = "ai"` and `Page = "tok123"` encodes to a map whose only key is
`baserequest` (the `%v`-rendering of the whole embedded struct) and which has
no `page` key at all. -/
theorem c5_page_param_never_encoded :
    structToMap (breakingNewsRequestFields
      { emptyBreakingNewsRequest with
          base := { emptyBaseRequest with query := "ai", page := "tok123" } }) =
      some [("baserequest", "\x7b[] ai   [] [] [] [] [] [] [] []      0 tok123\x7d")] ∧
    (structToMap (breakingNewsRequestFields
      { emptyBreakingNewsRequest with
          base := { emptyBaseRequest with query := "ai", page := "tok123" } })).map
      (fun m => m.lookup "page") = some none := by
  refine ⟨by decide, by decide⟩

/-- C6: the continuation-token slot is the only query field the engine
mutates between page fetches.  `BreakingNewsRequest.setPage` changes the
(promoted) `Page` field and leaves every other field of the request
untouched, and every query the `streamArticles` loop passes to the transport
coincides, after erasing the page token, with the caller's query. -/
theorem c6_only_page_mutated :
    (∀ (q : BreakingNewsRequest) (p : String),
      (q.setPage p).base.page = p ∧
      (q.setPage p).base.id = q.base.id ∧
      (q.setPage p).base.query = q.base.query ∧
      (q.setPage p).base.queryInTitle = q.base.queryInTitle ∧
      (q.setPage p).base.queryInMetadata = q.base.queryInMetadata ∧
      (q.setPage p).base.categories = q.base.categories ∧
      (q.setPage p).base.excludeCategories = q.base.excludeCategories ∧
      (q.setPage p).base.countries = q.base.countries ∧
      (q.setPage p).base.languages = q.base.languages ∧
      (q.setPage p).base.domains = q.base.domains ∧
      (q.setPage p).base.domainUrls = q.base.domainUrls ∧
      (q.setPage p).base.excludeDomains = q.base.excludeDomains ∧
      (q.setPage p).base.excludeFields = q.base.excludeFields ∧
      (q.setPage p).base.priorityDomain = q.base.priorityDomain ∧
      (q.setPage p).base.timezone = q.base.timezone ∧
      (q.setPage p).base.fullContent = q.base.fullContent ∧
      (q.setPage p).base.image = q.base.image ∧
      (q.setPage p).base.video = q.base.video ∧
      (q.setPage p).base.size = q.base.size ∧
      (q.setPage p).timeframe = q.timeframe ∧
      (q.setPage p).tags = q.tags ∧
      (q.setPage p).sentiment = q.sentiment ∧
      (q.setPage p).regions = q.regions ∧
      (q.setPage p).removeDuplicates = q.removeDuplicates) ∧
    ∀ (α : Type) (server : Server BreakingNewsRequest α)
      (valid : BreakingNewsRequest → Option String) (q : BreakingNewsRequest)
      (maxR fuel : Nat) (q' : BreakingNewsRequest),
      q' ∈ (streamArticles server BreakingNewsRequest.setPage valid q maxR fuel).queries →
      q'.setPage "" = q.setPage "" := by
  have hset : ∀ (q : BreakingNewsRequest) (a b : String),
      (q.setPage a).setPage b = q.setPage b := fun _ _ _ => rfl
  constructor
  · intro q p
    exact ⟨rfl, rfl, rfl, rfl, rfl, rfl, rfl, rfl, rfl, rfl, rfl, rfl, rfl, rfl, rfl, rfl,
      rfl, rfl, rfl, rfl, rfl, rfl, rfl, rfl⟩
  · intro α server valid q maxR fuel q' hq
    unfold streamArticles at hq
    rcases hv : valid q with e | _
    · rw [hv] at hq
      have := streamArticlesLoop_queries_erase server BreakingNewsRequest.setPage hset
        fuel (q.setPage "") 0 maxR [] q' hq
      rw [this, hset]
    · rw [hv] at hq
      simp at hq

/-- Witness for C6: a field-preservation instance and a concrete run of the
one-page fixture. -/
theorem c6_only_page_mutated_witness :
    (emptyBreakingNewsRequest.setPage "tok").base.page = "tok" ∧
    (emptyBreakingNewsRequest.setPage "").setPage "" = emptyBreakingNewsRequest.setPage "" :=
  ⟨(c6_only_page_mutated.1 emptyBreakingNewsRequest "tok").1,
   c6_only_page_mutated.2 Nat onePageServer (fun _ => none) emptyBreakingNewsRequest 5 2
     (emptyBreakingNewsRequest.setPage "") (by decide)⟩

/-- C7: a non-2xx response whose body decodes as
`{status, results:{message, code}}` makes the fetch return an error whose
message carries the decoded message (prefixed verbatim, URL appended), and a
session hitting this on its first page emits zero items and fails with that
error. -/
theorem c7_error_message_surfaced {Q α : Type} (server : Server Q α)
    (setPg : Q → String → Q) (valid : Q → Option String) (q : Q) (maxR fuel : Nat)
    (statusCode : Nat) (d : ErrorResponse) (body url e : String)
    (hsc : statusCode ≠ 200) (hv : valid q = none)
    (hs : server (setPg q "") = .error e) :
    fetchHandleStatus statusCode (.ok d) body url =
      .error (d.err.message ++ " - url: " ++ url) ∧
    streamArticles server setPg valid q maxR (fuel + 1) = ⟨[], [setPg q ""], .fail e⟩ := by
  constructor
  · simp [fetchHandleStatus, hsc]
  · unfold streamArticles
    rw [hv]
    rw [streamArticlesLoop, hs]

/-- Witness for C7: status 429 with the body message `rate limited`, on a
server whose first page fails with that message. -/
theorem c7_error_message_surfaced_witness :
    fetchHandleStatus 429 (.ok ⟨"error", "rate limited", "429"⟩) "" "u" =
      .error ("rate limited" ++ " - url: " ++ "u") ∧
    streamArticles (fun _ => .error "rate limited" : Server BreakingNewsRequest Nat)
        BreakingNewsRequest.setPage (fun _ => none) emptyBreakingNewsRequest 10 3 =
      ⟨[], [emptyBreakingNewsRequest.setPage ""], .fail "rate limited"⟩ :=
  c7_error_message_surfaced (fun _ => .error "rate limited")
    BreakingNewsRequest.setPage (fun _ => none) emptyBreakingNewsRequest 10 2
    429 ⟨"error", "rate limited", "429"⟩ "" "u" "rate limited"
    (by decide) rfl rfl

/-- C8: the claim says a present (non-zero) future `From`/`To` date is
rejected by validation.  The code violates this: the guard is
`p.From.IsZero() && p.From.After(time.Now())`, which is unsatisfiable for any
real clock (a zero date is never after now, a non-zero date fails `IsZero`),
so the date rule rejects nothing — in particular a future `From` one hundred
million seconds past `now` passes — while absent and past dates pass as the
claim expects. -/
theorem c8_future_dates_accepted :
    archiveValidateDates 1800000000 0 1700000000 = none ∧
    archiveValidateDates 0 1800000000 1700000000 = none ∧
    ∀ (f t now : Int), 0 ≤ now → archiveValidateDates f t now = none := by
  refine ⟨by decide, by decide, ?_⟩
  intro f t now hnow
  unfold archiveValidateDates
  rw [if_neg, if_neg]
  · rintro ⟨h0, hgt⟩
    rw [h0] at hgt
    omega
  · rintro ⟨h0, hgt⟩
    rw [h0] at hgt
    omega

/-- Witness for C8's universal part at a concrete past date and clock. -/
theorem c8_future_dates_accepted_witness : archiveValidateDates 7 5 100 = none :=
  c8_future_dates_accepted.2.2 7 5 100 (by decide)

/-- C9: the claim says decoding normalizes the plan-restriction and null
shapes of the restricted fields to the empty value and decodes the structured
shape without error.  `SentimentStats.UnmarshalJSON` does, but
`Tags.UnmarshalJSON` compares its prefix against the raw JSON bytes, which
for a JSON string start with a quote character: the restriction message is
not normalized — it survives as a single junk tag that still carries the
quote characters (and a structured comma-separated string keeps its quotes
too). -/
theorem c9_restriction_message_not_normalized :
    tagsUnmarshalJSON "\"ONLY AVAILABLE IN PROFESSIONAL AND CORPORATE PLANS\"" =
      ["\"ONLY AVAILABLE IN PROFESSIONAL AND CORPORATE PLANS\""] ∧
    tagsUnmarshalJSON "null" = [] ∧
    sentimentStatsUnmarshalJSON
        (.str "ONLY AVAILABLE IN PROFESSIONAL AND CORPORATE PLANS") = .ok ⟨0, 0, 0⟩ ∧
    sentimentStatsUnmarshalJSON .null = .ok ⟨0, 0, 0⟩ ∧
    sentimentStatsUnmarshalJSON
        (.obj [("positive", 55), ("neutral", 30), ("negative", 15)]) = .ok ⟨55, 30, 15⟩ := by
  refine ⟨?_, by decide, by rfl, by rfl, by rfl⟩
  set_option maxRecDepth 8000 in decide

/-- C10: `NewArticleRequest` never rejects a long query: the stored `q`
parameter is the query itself when it fits, its first 512 bytes when it is
longer (and no `q` entry at all for the empty query), so the parameter map
always carries a `q` of length at most 512. -/
theorem c10_query_truncated_to_512 (service : NewsServiceKind) (query : List Char) :
    (newArticleRequest service query).params =
      (if query = [] then []
       else [("q", if 512 < query.length then query.take 512 else query)]) ∧
    ∀ p ∈ (newArticleRequest service query).params, p.2.length ≤ 512 := by
  have hq : (if 512 < query.length then query.take 512 else query) = [] ↔ query = [] := by
    by_cases h : 512 < query.length
    · simp only [if_pos h, List.take_eq_nil_iff]
      constructor
      · rintro (h512 | hnil)
        · omega
        · exact hnil
      · intro hnil
        exact Or.inr hnil
    · simp [h]
  constructor
  · unfold newArticleRequest
    by_cases hnil : query = []
    · simp [hnil]
    · rw [if_neg (fun hh => hnil (hq.mp hh)), if_neg hnil]
  · intro p hp
    unfold newArticleRequest at hp
    by_cases hnil : (if 512 < query.length then query.take 512 else query) = []
    · rw [if_pos hnil] at hp
      simp at hp
    · rw [if_neg hnil] at hp
      simp at hp
      rw [hp]
      by_cases h : 512 < query.length
      · simp only [if_pos h, List.length_take]
        exact Nat.min_le_left _ _
      · simp only [if_neg h]
        omega

/-- Witness for C10 at a 600-byte query: the stored `q` value fits in 512
bytes. -/
theorem c10_query_truncated_to_512_witness :
    ((List.replicate 600 'a').take 512).length ≤ 512 := by
  have h := c10_query_truncated_to_512 .latestNews (List.replicate 600 'a')
  refine h.2 ("q", (List.replicate 600 'a').take 512) ?_
  have hne : ¬(List.replicate 600 'a' = []) := by
    rw [List.replicate_eq_nil_iff]
    omega
  have hlt : 512 < (List.replicate 600 'a').length := by
    rw [List.length_replicate]
    omega
  rw [h.1, if_neg hne, if_pos hlt]
  exact List.mem_singleton.mpr rfl

end Newsdata
